import Mathlib

/-!
Verification development for the Solix shell (src/rootfs/shell/shell.c).

The shell's line-execution pipeline is shallowly embedded here: C strings
become `List Char`, the tokenizer, variable expander, segment planner,
chain executor, history ring and the relevant built-ins become executable
Lean functions translated directly from the C source.  Loops that walk a
C array become structural recursions on lists; the two loops whose
progress is not structural (the outer tokenizer loop and the segment
chain loop) take an explicit fuel argument set to `length + 1`, which is
enough because every iteration of the corresponding C loop consumes at
least one character (resp. at least one token).
-/

namespace Solix

/-- Convert a string literal to the `List Char` representation used for C strings. -/
def cs (s : String) : List Char := s.toList

/-- The single-quote character. -/
def squote : Char := Char.ofNat 39

/-- The double-quote character. -/
def dquote : Char := Char.ofNat 34

/-- The backslash character. -/
def bslash : Char := Char.ofNat 92

/-- shell.c line 162: `is_space` recognizes space and tab only. -/
def is_space (c : Char) : Bool := c == (' ') || c == ('\t')

/-- A token, tagged with the branch of `tokenize_command` that emitted it:
`op` for the operator branches (lines 172-176), `word` for the word branch
(lines 178-187).  The C code stores both as plain strings; the tag records
provenance only and carries no extra information used downstream. -/
inductive Token where
  | op : List Char → Token
  | word : List Char → Token
deriving DecidableEq, Repr

/-- The text of a token (what the C code actually stores). -/
def Token.text : Token → List Char
  | Token.op s => s
  | Token.word s => s

/-- shell.c lines 178-185: the inner word loop of `tokenize_command`.
`p` is the remaining input, `in_s`/`in_d` the quote flags, `bi` the number
of characters appended so far, `acc` the reversed buffer.  Returns the
accumulated word and the remaining input.  The loop condition is
`*p && (in_s || in_d || (!is_space(*p) && *p!=';' && *p!='|' && *p!='>' && *p!='<'))`;
quotes toggle flags without being appended, a backslash followed by any
character appends that character (with no buffer-limit check, mirroring the
C `continue`), and a plain append is followed by the `bi >= MAX_CMD_LEN-1`
break check. -/
def scanWord : List Char → Bool → Bool → Nat → List Char → List Char × List Char
  | [], _, _, _, acc => (acc.reverse, [])
  | [c], in_s, in_d, _, acc =>
    if in_s || in_d || (!(is_space c) && !(c == (';')) && !(c == ('|')) && !(c == ('>')) && !(c == ('<'))) then
      if !in_s && c == dquote then (acc.reverse, [])
      else if !in_d && c == squote then (acc.reverse, [])
      else ((c :: acc).reverse, [])
    else (acc.reverse, [c])
  | c :: d :: rest2, in_s, in_d, bi, acc =>
    if in_s || in_d || (!(is_space c) && !(c == (';')) && !(c == ('|')) && !(c == ('>')) && !(c == ('<'))) then
      if !in_s && c == dquote then scanWord (d :: rest2) in_s (!in_d) bi acc
      else if !in_d && c == squote then scanWord (d :: rest2) (!in_s) in_d bi acc
      else if c == bslash then scanWord rest2 in_s in_d (bi + 1) (d :: acc)
      else if bi + 1 ≥ 1023 then ((c :: acc).reverse, d :: rest2)
      else scanWord (d :: rest2) in_s in_d (bi + 1) (c :: acc)
    else (acc.reverse, c :: d :: rest2)

/-- shell.c lines 164-190: the outer loop of `tokenize_command`.  Each
iteration skips spaces, stops at end of input, stops silently when
`count >= max_tokens`, then emits a two-character operator (`&&`, `||`,
`>>`), a one-character operator (`;`, `|`, `>`, `<`), or a word scanned by
`scanWord`.  `fuel` bounds the number of iterations; every iteration of
the C loop consumes at least one input character, so `length + 1` fuel is
always sufficient. -/
def tokenizeAux (max_tokens : Nat) : Nat → List Char → Nat → List Token
  | 0, _, _ => []
  | fuel + 1, p, count =>
    match p.dropWhile is_space with
    | [] => []
    | a :: b :: rest2 =>
      if count ≥ max_tokens then []
      else if (a = ('&') ∧ b = ('&')) ∨ (a = ('|') ∧ b = ('|')) ∨ (a = ('>') ∧ b = ('>')) then
        Token.op [a, b] :: tokenizeAux max_tokens fuel rest2 (count + 1)
      else if a = (';') ∨ a = ('|') ∨ a = ('>') ∨ a = ('<') then
        Token.op [a] :: tokenizeAux max_tokens fuel (b :: rest2) (count + 1)
      else
        Token.word (scanWord (a :: b :: rest2) false false 0 []).1
          :: tokenizeAux max_tokens fuel (scanWord (a :: b :: rest2) false false 0 []).2 (count + 1)
    | [a] =>
      if count ≥ max_tokens then []
      else if a = (';') ∨ a = ('|') ∨ a = ('>') ∨ a = ('<') then
        Token.op [a] :: tokenizeAux max_tokens fuel [] (count + 1)
      else
        Token.word (scanWord [a] false false 0 []).1
          :: tokenizeAux max_tokens fuel (scanWord [a] false false 0 []).2 (count + 1)

/-- shell.c line 164: `tokenize_command(line, tokens, max_tokens)`. -/
def tokenize_command (line : List Char) (max_tokens : Nat) : List Token :=
  tokenizeAux max_tokens (line.length + 1) line 0

/-- Each emitted token increments `count`, and the loop stops once
`count ≥ max_tokens`, so at most `max_tokens - count` further tokens appear. -/
theorem tokenizeAux_length (m : Nat) :
    ∀ (fuel : Nat) (p : List Char) (count : Nat),
      (tokenizeAux m fuel p count).length ≤ m - count := by
  intro fuel
  induction fuel with
  | zero => intro p count; simp [tokenizeAux]
  | succ n ih =>
    intro p count
    have key : ∀ (t : Token) (y : List Char), count < m →
        (tokenizeAux m n y (count + 1)).length ≤ m - (count + 1) →
        (t :: tokenizeAux m n y (count + 1)).length ≤ m - count := by
      intro t y h1 h2
      simp only [List.length_cons]
      omega
    simp only [tokenizeAux]
    split
    · simp
    · split
      · simp
      · split
        · exact key _ _ (by omega) (ih _ _)
        · split
          · exact key _ _ (by omega) (ih _ _)
          · exact key _ _ (by omega) (ih _ _)
    · split
      · simp
      · split
        · exact key _ _ (by omega) (ih _ _)
        · exact key _ _ (by omega) (ih _ _)

set_option maxRecDepth 8000 in
/-- C10: for every input line, `tokenize_command` called with `MAX_TOKENS = 128`
(as `main` does at line 758) produces at most 128 tokens, and once the limit is
reached the remainder of the line is silently discarded rather than reported:
a line of 130 words yields exactly the first 128 tokens and no error.  Hence the
writes into `char *tokens[MAX_TOKENS]` stay in bounds. -/
theorem tokenize_command_respects_max_tokens (line : List Char) :
    (tokenize_command line 128).length ≤ 128
    ∧ tokenize_command ((List.replicate 130 (cs ("a "))).flatten) 128
        = List.replicate 128 (Token.word [('a')]) := by
  constructor
  · have h := tokenizeAux_length 128 (line.length + 1) line 0
    simpa [tokenize_command] using h
  · decide

/-- C5 counterexample: the claim says a line consisting only of a pair of
quotes produces no token, but `tokenize_command` on the line `""` emits one
Word token with empty text (the word branch at lines 178-187 runs
`tokens[count++] = strdup(buf)` unconditionally, even when `bi = 0`). -/
theorem tokenize_empty_quotes_emits_empty_word :
    tokenize_command (cs ("\"\"")) 128 = [Token.word []]
    ∧ ([Token.word []] : List Token) ≠ [] := by
  constructor
  · decide
  · decide

/-- C5 amended: the tokenizer is total (it never fails — the embedding is a
total function) and an unterminated quote yields whatever word text was
accumulated; however empty Word tokens ARE emitted when a word consists only
of quote characters: `""` produces one empty Word token, and the unterminated
`'a b` produces the single Word `a b`. -/
theorem tokenize_empty_and_unterminated :
    tokenize_command (cs ("\"\"")) 128 = [Token.word []]
    ∧ tokenize_command (squote :: cs ("a b")) 128 = [Token.word (cs ("a b"))] := by
  constructor
  · decide
  · decide

/-- C6 counterexample: the claim says every character consumed inside quote
mode is appended literally (backslashes lose special meaning inside quotes),
so tokenizing `'a\b'` would have to yield the Word `a\b`; but the backslash
branch at line 182 of `tokenize_command` is not guarded by the quote flags,
so inside single quotes `\b` still collapses to `b` and the result is the
Word `ab`. -/
theorem tokenize_backslash_special_inside_quotes :
    tokenize_command (squote :: ('a') :: bslash :: ('b') :: [squote]) 128
      = [Token.word [('a'), ('b')]]
    ∧ ([('a'), ('b')] : List Char) ≠ [('a'), bslash, ('b')] := by
  constructor
  · decide
  · decide

/-- C6 amended: characters consumed inside quote mode are literal for
whitespace and operator characters, the quote characters themselves are not
included in the word, and the three concrete examples hold (`'a b'`, `"a b"`
and `a\ b` each give one Word `a b`; `"a;b"` gives one Word `a;b`); but a
backslash keeps its escaping role even inside quotes: `'a\b'` gives the
Word `ab`. -/
theorem tokenize_quote_transparency :
    tokenize_command (squote :: cs ("a b") ++ [squote]) 128 = [Token.word (cs ("a b"))]
    ∧ tokenize_command (dquote :: cs ("a b") ++ [dquote]) 128 = [Token.word (cs ("a b"))]
    ∧ tokenize_command (cs ("a") ++ [bslash] ++ cs (" b")) 128 = [Token.word (cs ("a b"))]
    ∧ tokenize_command (dquote :: cs ("a;b") ++ [dquote]) 128 = [Token.word (cs ("a;b"))]
    ∧ tokenize_command (squote :: ('a') :: bslash :: ('b') :: [squote]) 128
        = [Token.word [('a'), ('b')]] := by
  refine ⟨by decide, by decide, by decide, by decide, by decide⟩

/-- shell.c lines 199-200: the decimal rendering of `last_status` produced by
`snprintf(numbuf, sizeof(numbuf), "%d", last_status)`. -/
def int_to_decimal (n : Int) : List Char := (toString n).toList

/-- shell.c lines 201-208: the body of `expand_vars` for one token.  A token
equal to `$?` becomes the decimal of `last_status`; a token whose first
character is `$`, whose second character exists and is not `?`, is replaced by
the environment value of the name after the `$` when that name is set
(`if (val)`), and is left unchanged when `getenv` returns NULL.  All other
tokens are unchanged. -/
def expand_token (env : List Char → Option (List Char)) (numbuf : List Char)
    (t : List Char) : List Char :=
  if t = cs ("$?") then numbuf
  else
    match t with
    | c0 :: c1 :: rest =>
      if c0 = ('$') ∧ ¬ c1 = ('?') then
        match env (c1 :: rest) with
        | some v => v
        | none => c0 :: c1 :: rest
      else c0 :: c1 :: rest
    | t0 => t0

/-- shell.c lines 197-209: `expand_vars` maps the per-token expansion over the
token texts, with `numbuf` computed once from `last_status`. -/
def expand_vars (env : List Char → Option (List Char)) (last_status : Int)
    (toks : List (List Char)) : List (List Char) :=
  toks.map (expand_token env (int_to_decimal last_status))

/-- The SIGINT signal number on Linux. -/
def SIGINT : Nat := 2

/-- An abstract wait status: whether the child exited normally, its exit code
(`WEXITSTATUS`) if so, and the terminating signal (`WTERMSIG`) if not. -/
structure WaitStatus where
  exited : Bool
  code : Nat
  sig : Nat
deriving DecidableEq, Repr

/-- shell.c line 241 (`exec_external`) and line 288 (`exec_pipeline`): the
status reported for a reaped child is
`WIFEXITED(status) ? WEXITSTATUS(status) : 128+SIGINT` — the signal constant
is hard-coded, `WTERMSIG` is never consulted. -/
def reap_status (w : WaitStatus) : Nat :=
  if w.exited then w.code else 128 + SIGINT

/-- shell.c lines 94-108: the built-in table, in order. -/
def builtin_names : List (List Char) :=
  [cs ("cd"), cs ("pwd"), cs ("help"), cs ("exit"), cs ("clear"), cs ("echo"),
   cs ("ls"), cs ("cat"), cs ("history"), cs ("uptime"), cs ("which"),
   cs ("export"), cs ("unset")]

/-- shell.c lines 214-218: `is_builtin` scans the table with `strcmp`. -/
def is_builtin (cmd : List Char) : Bool :=
  builtin_names.any (fun n => n == cmd)

/-- What the child of a fork does after the file-descriptor plumbing. -/
inductive ChildAction where
  | dispatchBuiltin
  | pathExec
deriving DecidableEq, Repr

/-- shell.c lines 227-234: the child forked by `exec_external` restores the
default SIGINT disposition, duplicates the open descriptors onto fds 0 and 1,
and then unconditionally calls `execvp(argv[0], argv)` — the built-in table is
never consulted in this child, whatever `argv` is. -/
def exec_external_child_action (_argv : List (List Char)) : ChildAction :=
  ChildAction.pathExec

/-- shell.c lines 270 and 282: a pipeline child first checks
`is_builtin(argv[0])` and dispatches the built-in with `_exit(exec_builtin(...))`;
only otherwise does it `execvp`. -/
def pipeline_child_action (argv : List (List Char)) : ChildAction :=
  if is_builtin (argv.headD []) then ChildAction.dispatchBuiltin
  else ChildAction.pathExec

/-- How `exec_simple` runs a command. -/
inductive SimpleResult where
  | openFail
  | ranBuiltinInShell
  | forkedChild (act : ChildAction)
deriving DecidableEq, Repr

/-- shell.c lines 244-257: `exec_simple` opens the redirection files first
(returning status 1 on open failure, modelled by `in_ok`/`out_ok`), then runs
the built-in in the shell process only when the command is a built-in AND no
descriptor was opened (`in_fd==-1 && out_fd==-1`); in every other case it
calls `exec_external`, whose child performs `exec_external_child_action`. -/
def exec_simple_mode (argv : List (List Char)) (inf outf : Option (List Char))
    (in_ok out_ok : Bool) : SimpleResult :=
  if inf.isSome ∧ ¬ in_ok then SimpleResult.openFail
  else if outf.isSome ∧ ¬ out_ok then SimpleResult.openFail
  else if is_builtin (argv.headD []) ∧ inf.isNone ∧ outf.isNone then
    SimpleResult.ranBuiltinInShell
  else SimpleResult.forkedChild (exec_external_child_action argv)

/-- The space-class characters skipped by C `atoi`. -/
def c_isspace (c : Char) : Bool :=
  c == (' ') || c == ('\t') || c == ('\n') || c == ('\x0b') || c == ('\x0c') || c == ('\r')

/-- Digit accumulation for `atoi`. -/
def atoi_digits : List Char → Int → Int
  | [], acc => acc
  | c :: rest, acc =>
    if c.isDigit then atoi_digits rest (acc * 10 + ((c.toNat : Int) - 48)) else acc

/-- C `atoi`: skip leading space characters, honour one optional sign, read
leading digits, 0 when there are none. -/
def atoi (s : List Char) : Int :=
  match s.dropWhile c_isspace with
  | [] => 0
  | c :: rest =>
    if c = ('-') then - atoi_digits rest 0
    else if c = ('+') then atoi_digits rest 0
    else atoi_digits (c :: rest) 0

/-- shell.c lines 501-513: `builtin_exit` parses `argv[1]` with `atoi` when
present, prints a goodbye line, clears the global `running` flag, and returns
the parsed code.  Result: (returned status, value of `running` afterwards). -/
def builtin_exit (argv : List (List Char)) : Int × Bool :=
  (match argv.get? 1 with
   | some a => atoi a
   | none => 0,
   false)

/-- shell.c lines 608-624: the `for` loop of `builtin_cat` over the operands.
`fs` models `fopen`: the contents of each openable file, or `none`.  Returns
the bytes copied to standard output (in order) and the list of operands that
failed to open (each of which produced a diagnostic and was skipped). -/
def cat_loop (fs : List Char → Option (List Char)) :
    List (List Char) → List Char × List (List Char)
  | [] => ([], [])
  | f :: rest =>
    match fs f with
    | some content => (content ++ (cat_loop fs rest).1, (cat_loop fs rest).2)
    | none => ((cat_loop fs rest).1, f :: (cat_loop fs rest).2)

/-- shell.c lines 600-627: `builtin_cat` returns 1 with a diagnostic when
`args[1] == NULL`; otherwise it runs `cat_loop` on `argv[1..]` and returns 0
unconditionally.  Result: (status, stdout bytes, operands that failed to open). -/
def builtin_cat (fs : List Char → Option (List Char)) (argv : List (List Char)) :
    Nat × List Char × List (List Char) :=
  if argv.drop 1 = [] then (1, [], [])
  else (0, (cat_loop fs (argv.drop 1)).1, (cat_loop fs (argv.drop 1)).2)

/-- The history store: the monotone insertion counter `history_count` and the
ring `command_history`, read and written at indices reduced mod
`HISTORY_SIZE = 200`. -/
structure History where
  count : Nat
  ring : Nat → List Char

/-- shell.c lines 357-366: `add_to_history` ignores empty strings, stores the
command (truncated by `strncpy(..., MAX_CMD_LEN-1)` to 1023 characters) at
slot `history_count % HISTORY_SIZE`, and increments the counter. -/
def add_to_history (h : History) (cmd : List Char) : History :=
  if cmd = [] then h
  else
    { count := h.count + 1,
      ring := fun i => if i = h.count % 200 then cmd.take 1023 else h.ring i }

/-- shell.c line 634: `start = (history_count > HISTORY_SIZE) ? history_count - HISTORY_SIZE : 0`. -/
def hist_start (n : Nat) : Nat := if n > 200 then n - 200 else 0

/-- shell.c lines 638-642: the display loop of `builtin_history`, printing
entry `i % HISTORY_SIZE` with number `i + 1` for `i` from `start` while
`i < end`.  The second argument is the remaining iteration count `end - i`. -/
def history_loop (h : History) : Nat → Nat → List (Nat × List Char)
  | _, 0 => []
  | i, n + 1 => (i + 1, h.ring (i % 200)) :: history_loop h (i + 1) n

/-- shell.c lines 632-645: the numbered entries printed by `builtin_history`. -/
def builtin_history_entries (h : History) : List (Nat × List Char) :=
  history_loop h (hist_start h.count) (h.count - hist_start h.count)

/-- shell.c line 300: the chain operators recognized by `execute_line_tokens`. -/
def isChainOp (t : List Char) : Bool :=
  t == cs ("&&") || t == cs ("||") || t == cs (";")

/-- The plan `execute_line_tokens` builds for a pipeless segment
(shell.c lines 311-318). -/
structure SimplePlan where
  inf : Option (List Char)
  outf : Option (List Char)
  app : Bool
  argv : List (List Char)
deriving DecidableEq, Repr

/-- shell.c lines 312-317: the redirection/argv scan for a pipeless segment.
`>`/`>>` set `append` from the operator's second character and take the next
token (if any) as the output path, consuming it; `<` takes the next token (if
any) as the input path; every other token joins the argv.  A redirection
operator that is the last token in the segment still updates `append` but
sets no path. -/
def plan_simple : List (List Char) → Option (List Char) → Option (List Char) →
    Bool → List (List Char) → SimplePlan
  | [], inf, outf, app, acc => ⟨inf, outf, app, acc.reverse⟩
  | [t], inf, outf, app, acc =>
    if t == cs (">") || t == cs (">>") then ⟨inf, outf, t == cs (">>"), acc.reverse⟩
    else if t == cs ("<") then ⟨inf, outf, app, acc.reverse⟩
    else ⟨inf, outf, app, (t :: acc).reverse⟩
  | t :: f :: rest2, inf, outf, app, acc =>
    if t == cs (">") || t == cs (">>") then
      plan_simple rest2 inf (some f) (t == cs (">>")) acc
    else if t == cs ("<") then plan_simple rest2 (some f) outf app acc
    else plan_simple (f :: rest2) inf outf app (t :: acc)

/-- shell.c lines 321-324: the scan of a pipeline's left side, which only
recognizes `<`. -/
def plan_pipe_left : List (List Char) → Option (List Char) → List (List Char) →
    Option (List Char) × List (List Char)
  | [], inf, acc => (inf, acc.reverse)
  | [t], inf, acc =>
    if t == cs ("<") then (inf, acc.reverse) else (inf, (t :: acc).reverse)
  | t :: f :: rest2, inf, acc =>
    if t == cs ("<") then plan_pipe_left rest2 (some f) acc
    else plan_pipe_left (f :: rest2) inf (t :: acc)

/-- shell.c lines 327-330: the scan of a pipeline's right side, which only
recognizes `>` and `>>`. -/
def plan_pipe_right : List (List Char) → Option (List Char) → Bool →
    List (List Char) → Option (List Char) × Bool × List (List Char)
  | [], outf, app, acc => (outf, app, acc.reverse)
  | [t], outf, app, acc =>
    if t == cs (">") || t == cs (">>") then (outf, t == cs (">>"), acc.reverse)
    else (outf, app, (t :: acc).reverse)
  | t :: f :: rest2, outf, app, acc =>
    if t == cs (">") || t == cs (">>") then
      plan_pipe_right rest2 (some f) (t == cs (">>")) acc
    else plan_pipe_right (f :: rest2) outf app (t :: acc)

/-- A call the executor actually makes for one segment: `exec_simple` with
(argv, in_file, out_file, append), or `exec_pipeline` with
(left argv, left in_file, right argv, right out_file, append). -/
inductive SegCall where
  | simple (argv : List (List Char)) (inf outf : Option (List Char)) (app : Bool)
  | piped (argvL : List (List Char)) (inf : Option (List Char))
      (argvR : List (List Char)) (outf : Option (List Char)) (app : Bool)
deriving DecidableEq, Repr

/-- shell.c lines 305-333: execution of one segment `[start,end)` of
`execute_line_tokens`.  The first `|` (if any) splits the segment; a pipeless
segment with non-empty argv calls `exec_simple`, a piped segment with both
sides non-empty calls `exec_pipeline`, and anything else is a no-op with
status 0.  `runS`/`runP` abstract the two exec functions; the returned list
records the calls actually made. -/
def run_segment
    (runS : List (List Char) → Option (List Char) → Option (List Char) → Bool → Int)
    (runP : List (List Char) → Option (List Char) → List (List Char) →
        Option (List Char) → Bool → Int)
    (seg : List (List Char)) : Int × List SegCall :=
  let left := seg.takeWhile (fun t => !(t == [('|')]))
  match seg.dropWhile (fun t => !(t == [('|')])) with
  | [] =>
    let p := plan_simple seg none none false []
    if p.argv ≠ [] then
      (runS p.argv p.inf p.outf p.app, [SegCall.simple p.argv p.inf p.outf p.app])
    else (0, [])
  | _ :: right =>
    let lp := plan_pipe_left left none []
    let rp := plan_pipe_right right none false []
    if lp.2 ≠ [] ∧ rp.2.2 ≠ [] then
      (runP lp.2 lp.1 rp.2.2 rp.1 rp.2.1,
       [SegCall.piped lp.2 lp.1 rp.2.2 rp.1 rp.2.1])
    else (0, [])

/-- shell.c lines 291-347: the chain loop of `execute_line_tokens`.  Each
iteration runs the tokens up to the next chain operator, stores the segment
status into `last_status`, and then — in all three branches of the chain
logic at lines 336-344 alike — advances `i` to just past the operator and
continues with the next segment.  `ls` is the current `last_status`; the
fuel bounds the iterations (each one consumes the segment and its operator,
so `length + 1` is always enough).  Returns the final `last_status` and the
exec calls made, in order. -/
def exec_line_aux
    (runS : List (List Char) → Option (List Char) → Option (List Char) → Bool → Int)
    (runP : List (List Char) → Option (List Char) → List (List Char) →
        Option (List Char) → Bool → Int) :
    Nat → Int → List (List Char) → Int × List SegCall
  | 0, ls, _ => (ls, [])
  | fuel + 1, ls, tokens =>
    match tokens with
    | [] => (ls, [])
    | t0 :: trest =>
      let seg := (t0 :: trest).takeWhile (fun t => !(isChainOp t))
      let r := run_segment runS runP seg
      match (t0 :: trest).dropWhile (fun t => !(isChainOp t)) with
      | [] => (r.1, r.2)
      | op :: rest2 =>
        if op = cs ("&&") ∧ r.1 ≠ 0 then
          ((exec_line_aux runS runP fuel r.1 rest2).1,
           r.2 ++ (exec_line_aux runS runP fuel r.1 rest2).2)
        else if op = cs ("||") ∧ r.1 = 0 then
          ((exec_line_aux runS runP fuel r.1 rest2).1,
           r.2 ++ (exec_line_aux runS runP fuel r.1 rest2).2)
        else
          ((exec_line_aux runS runP fuel r.1 rest2).1,
           r.2 ++ (exec_line_aux runS runP fuel r.1 rest2).2)

/-- shell.c line 291: `execute_line_tokens(tokens, count)`, entered with the
current `last_status` value `ls0`. -/
def execute_line_tokens
    (runS : List (List Char) → Option (List Char) → Option (List Char) → Bool → Int)
    (runP : List (List Char) → Option (List Char) → List (List Char) →
        Option (List Char) → Bool → Int)
    (ls0 : Int) (tokens : List (List Char)) : Int × List SegCall :=
  exec_line_aux runS runP (tokens.length + 1) ls0 tokens

/-- A concrete stand-in for `exec_simple` under which the command `false`
exits 1 and everything else exits 0. -/
def run_false_stub : List (List Char) → Option (List Char) → Option (List Char) →
    Bool → Int :=
  fun argv _ _ _ => if argv = [cs ("false")] then 1 else 0

/-- A concrete stand-in for `exec_pipeline` under which every pipeline
exits 0. -/
def run_pipe_stub : List (List Char) → Option (List Char) → List (List Char) →
    Option (List Char) → Bool → Int :=
  fun _ _ _ _ _ => 0

/-- C1: the claim says that after `false && X` (with `false` exiting 1) the
segment `X` is not executed and `last_status` remains 1.  In the code the
three branches of the chain logic at shell.c lines 337-344 are identical
(`i = end + 1`), so on the line `false && echo x` the shell executes
`echo x` anyway and `last_status` becomes echo's status 0 — the `&&`
short-circuit promised by the comment at line 293 never happens. -/
theorem chain_operators_do_not_short_circuit :
    execute_line_tokens run_false_stub run_pipe_stub 0
        [cs ("false"), cs ("&&"), cs ("echo"), cs ("x")]
      = (0, [SegCall.simple [cs ("false")] none none false,
             SegCall.simple [cs ("echo"), cs ("x")] none none false]) := by
  decide

/-- C9: `execute_line_tokens` never consults the `running` flag, so on the
line `exit ; echo y` it makes the exec call for `echo y` after the one for
`exit`, whatever the exec functions return; and `builtin_exit` only clears
`running` and returns the `atoi` of its first argument (0 when absent). -/
theorem exit_does_not_abort_line
    (runS : List (List Char) → Option (List Char) → Option (List Char) → Bool → Int)
    (runP : List (List Char) → Option (List Char) → List (List Char) →
        Option (List Char) → Bool → Int) (ls : Int) :
    (execute_line_tokens runS runP ls [cs ("exit"), cs (";"), cs ("echo"), cs ("y")]).2
      = [SegCall.simple [cs ("exit")] none none false,
         SegCall.simple [cs ("echo"), cs ("y")] none none false]
    ∧ builtin_exit [cs ("exit"), cs ("7")] = (7, false)
    ∧ builtin_exit [cs ("exit")] = (0, false) := by
  refine ⟨?_, by decide, by decide⟩
  rfl

theorem exit_does_not_abort_line_check :
    (execute_line_tokens run_false_stub run_pipe_stub 0
        [cs ("exit"), cs (";"), cs ("echo"), cs ("y")]).2
      = [SegCall.simple [cs ("exit")] none none false,
         SegCall.simple [cs ("echo"), cs ("y")] none none false]
    ∧ builtin_exit [cs ("exit"), cs ("7")] = (7, false)
    ∧ builtin_exit [cs ("exit")] = (0, false) :=
  exit_does_not_abort_line run_false_stub run_pipe_stub 0

/-- C2 counterexample: the claim says that for a built-in with a redirection
the forked child dispatches the built-in itself rather than attempting a
PATH-based program execution; but for `echo > f` the child of
`exec_external` performs a PATH `execvp`, not a built-in dispatch. -/
theorem builtin_with_redirection_not_dispatched_in_child :
    exec_simple_mode [cs ("echo")] none (some (cs ("f"))) true true
      = SimpleResult.forkedChild ChildAction.pathExec
    ∧ ChildAction.pathExec ≠ ChildAction.dispatchBuiltin := by
  decide

/-- C2 amended: a built-in with any requested (and successfully opened)
redirection is indeed executed by forking a child — so descriptor changes
stay out of the shell — but in that child a PATH-based `execvp` of the name
is attempted; the built-in is never dispatched inside the child of
`exec_external`. -/
theorem builtin_with_redirection_forks_path_exec
    (argv : List (List Char)) (inf outf : Option (List Char))
    (_hb : is_builtin (argv.headD []) = true)
    (hr : inf.isSome ∨ outf.isSome) :
    exec_simple_mode argv inf outf true true
      = SimpleResult.forkedChild ChildAction.pathExec := by
  cases inf with
  | some a => simp [exec_simple_mode, exec_external_child_action]
  | none =>
    cases outf with
    | some b => simp [exec_simple_mode, exec_external_child_action]
    | none => simp at hr

theorem builtin_with_redirection_forks_path_exec_check :
    exec_simple_mode [cs ("echo")] none (some (cs ("f"))) true true
      = SimpleResult.forkedChild ChildAction.pathExec :=
  builtin_with_redirection_forks_path_exec [cs ("echo")] none (some (cs ("f")))
    (by decide) (Or.inr (by decide))

/-- C3 counterexample: a child terminated by signal 9 (SIGKILL) is reported
with status 130, not 128 + 9 = 137 — `reap_status` hard-codes SIGINT. -/
theorem reap_status_ignores_terminating_signal :
    reap_status ⟨false, 0, 9⟩ = 130 ∧ (128 + 9 : Nat) ≠ 130 := by
  decide

/-- C3 amended: the status of a normally exiting child is its exit code, and
the status of every signal-terminated child is `128 + SIGINT = 130`,
regardless of which signal actually terminated it (the status equals
`128 + N` only when `N = SIGINT`). -/
theorem reap_status_spec (w : WaitStatus) :
    (w.exited = true → reap_status w = w.code)
    ∧ (w.exited = false → reap_status w = 128 + SIGINT) := by
  constructor <;> intro h <;> simp [reap_status, h]

theorem reap_status_spec_check :
    reap_status ⟨true, 7, 0⟩ = 7 ∧ reap_status ⟨false, 0, 9⟩ = 130 :=
  ⟨(reap_status_spec ⟨true, 7, 0⟩).1 rfl, (reap_status_spec ⟨false, 0, 9⟩).2 rfl⟩

/-- C4 counterexample: the claim says a `$NAME` token whose name is unset
becomes the empty string; but `expand_vars` only replaces the token when
`getenv` succeeds (`if (val)` at line 206), so with an empty environment the
token `$X` is left as the literal `$X`, not the empty string. -/
theorem unset_variable_left_as_literal :
    expand_vars (fun _ => none) 0 [[('$'), ('X')]] = [[('$'), ('X')]]
    ∧ ([('$'), ('X')] : List Char) ≠ [] := by
  decide

/-- C4 amended: expansion is per-token and preserves the token count; `$?`
becomes the decimal of `last_status`; a token `$` followed by a name whose
first character is not `?` becomes the environment value when the name is
set, and is left unchanged as the literal `$NAME` (still a single token)
when the name is unset. -/
theorem expand_vars_spec (env : List Char → Option (List Char)) (ls : Int)
    (toks : List (List Char)) (c : Char) (name : List Char) (hc : ¬ c = ('?')) :
    (expand_vars env ls toks).length = toks.length
    ∧ expand_token env (int_to_decimal ls) (cs ("$?")) = int_to_decimal ls
    ∧ expand_token env (int_to_decimal ls) (('$') :: c :: name)
        = (match env (c :: name) with
           | some v => v
           | none => ('$') :: c :: name) := by
  refine ⟨by simp [expand_vars], ?_, ?_⟩
  · unfold expand_token
    rw [if_pos rfl]
  · have hne : (('$') :: c :: name) ≠ cs ("$?") := by
      intro h
      rw [show cs ("$?") = [('$'), ('?')] from rfl] at h
      injection h with h1 h2
      injection h2 with h3 h4
      exact hc h3
    unfold expand_token
    rw [if_neg hne]
    show (if ('$') = ('$') ∧ ¬ c = ('?') then
            match env (c :: name) with
            | some v => v
            | none => ('$') :: c :: name
          else ('$') :: c :: name)
        = (match env (c :: name) with
           | some v => v
           | none => ('$') :: c :: name)
    rw [if_pos ⟨rfl, hc⟩]

/-- An environment with only `HOME` set. -/
def env_home : List Char → Option (List Char) :=
  fun n => if n = cs ("HOME") then some (cs ("/root")) else none

theorem expand_vars_spec_check :
    (expand_vars env_home 7 [cs ("$HOME"), cs ("$?")]).length = 2
    ∧ expand_token env_home (int_to_decimal 7) (cs ("$?")) = int_to_decimal 7
    ∧ expand_token env_home (int_to_decimal 7) (('$') :: ('H') :: cs ("OME"))
        = (match env_home (('H') :: cs ("OME")) with
           | some v => v
           | none => ('$') :: ('H') :: cs ("OME")) :=
  expand_vars_spec env_home 7 [cs ("$HOME"), cs ("$?")] ('H') (cs ("OME")) (by decide)

/-- The display loop prints entry `i % 200` with number `i + 1`, for the
`n` consecutive indices starting at `i`. -/
theorem history_loop_eq (h : History) :
    ∀ (n i : Nat), history_loop h i n
      = (List.range n).map (fun k => (i + k + 1, h.ring ((i + k) % 200))) := by
  intro n
  induction n with
  | zero => intro i; simp [history_loop]
  | succ m ih =>
    intro i
    rw [List.range_succ_eq_map]
    simp only [history_loop, List.map_cons, List.map_map]
    have hfun : ((fun k => (i + k + 1, h.ring ((i + k) % 200))) ∘ Nat.succ)
        = (fun k => (i + 1 + k + 1, h.ring ((i + 1 + k) % 200))) := by
      funext k
      simp only [Function.comp_apply]
      have e : i + 1 + k = i + (k + 1) := by omega
      rw [e]
    rw [hfun, ih (i + 1)]
    simp

/-- C7: each non-empty command is stored at ring slot `N mod 200` (truncated
to the 1023 characters `strncpy` copies) and the counter is incremented;
empty strings are never stored; display starts at `max(0, N - 200)` and the
`k`-th printed entry is entry `start + k` of the ring, numbered
`start + k + 1`, up to `N - 1`. -/
theorem history_ring_spec (h : History) (cmd : List Char) (hne : cmd ≠ []) :
    (add_to_history h cmd).count = h.count + 1
    ∧ (add_to_history h cmd).ring (h.count % 200) = cmd.take 1023
    ∧ add_to_history h [] = h
    ∧ ((hist_start h.count : Int) = max 0 ((h.count : Int) - 200))
    ∧ builtin_history_entries h
        = (List.range (h.count - hist_start h.count)).map
            (fun k => (hist_start h.count + k + 1,
                       h.ring ((hist_start h.count + k) % 200))) := by
  refine ⟨?_, ?_, ?_, ?_, ?_⟩
  · simp [add_to_history, hne]
  · simp [add_to_history, hne]
  · simp [add_to_history]
  · unfold hist_start
    split
    · rw [max_eq_right (by omega)]
      exact Nat.cast_sub (by omega)
    · rw [max_eq_left (by omega)]
      simp
  · unfold builtin_history_entries
    exact history_loop_eq h _ _

/-- A concrete history state with 250 insertions recorded. -/
def h0 : History := ⟨250, fun _ => []⟩

theorem history_ring_spec_check :
    (add_to_history h0 [('a')]).count = h0.count + 1
    ∧ (add_to_history h0 [('a')]).ring (h0.count % 200) = [('a')].take 1023
    ∧ add_to_history h0 [] = h0
    ∧ ((hist_start h0.count : Int) = max 0 ((h0.count : Int) - 200))
    ∧ builtin_history_entries h0
        = (List.range (h0.count - hist_start h0.count)).map
            (fun k => (hist_start h0.count + k + 1,
                       h0.ring ((hist_start h0.count + k) % 200))) :=
  history_ring_spec h0 [('a')] (by decide)

/-- The cat loop concatenates the contents of the openable operands in order
and collects the unopenable ones. -/
theorem cat_loop_eq (fs : List Char → Option (List Char)) :
    ∀ l : List (List Char), cat_loop fs l
      = ((l.filterMap fs).flatten, l.filter (fun f => (fs f).isNone)) := by
  intro l
  induction l with
  | nil => simp [cat_loop]
  | cons f rest ih =>
    cases hf : fs f with
    | some content => simp [cat_loop, hf, ih]
    | none => simp [cat_loop, hf, ih]

/-- C8 counterexample: the claim says `cat` returns 1 when no file could be
opened; but `builtin_cat` with one unopenable operand returns 0 (the final
`return 0` at line 626 runs regardless of open failures). -/
theorem cat_returns_zero_when_no_file_opens :
    (builtin_cat (fun _ => none) [cs ("cat"), cs ("missing")]).1 = 0
    ∧ (0 : Nat) ≠ 1 := by
  decide

/-- C8 amended: `cat` returns 1 with a diagnostic when called with no
arguments; otherwise it copies each openable file's bytes to standard output
in order, skips unopenable files with a diagnostic, and returns 0 regardless
of how many files opened. -/
theorem builtin_cat_spec (fs : List Char → Option (List Char))
    (argv : List (List Char)) (hne : argv.drop 1 ≠ []) :
    builtin_cat fs argv
      = (0, ((argv.drop 1).filterMap fs).flatten,
         (argv.drop 1).filter (fun f => (fs f).isNone))
    ∧ builtin_cat fs [cs ("cat")] = (1, [], []) := by
  constructor
  · unfold builtin_cat
    rw [if_neg hne, cat_loop_eq]
  · rfl

/-- A toy filesystem on which only the file `a` opens. -/
def fs_demo : List Char → Option (List Char) :=
  fun n => if n = cs ("a") then some (cs ("hi")) else none

theorem builtin_cat_spec_check :
    builtin_cat fs_demo [cs ("cat"), cs ("a"), cs ("b")]
      = (0, (([cs ("a"), cs ("b")]).filterMap fs_demo).flatten,
         ([cs ("a"), cs ("b")]).filter (fun f => (fs_demo f).isNone))
    ∧ builtin_cat fs_demo [cs ("cat")] = (1, [], []) :=
  builtin_cat_spec fs_demo [cs ("cat"), cs ("a"), cs ("b")] (by decide)

end Solix
